import Mathlib

/-!
Shallow embedding of the employee search application (`src/app.py`): the
record store adapter, the Gemini-backed tag extractor and profile
structurer, the tag-overlap ranking search, and the registration form
handler.  The two external collaborators (the AI service and the document
store) are modelled by the outcomes of their calls, passed in as
parameters: an `Except String String` is the AI response text or the
raised exception message, a `Bool` is whether a store write succeeds,
and the store itself is the list of documents of the `employees`
collection.
-/

namespace EmployeeSearch

/-- A document of the `employees` collection.  Its Firestore document id
equals the `name` field (the document reference is obtained from the
employee name);
`updated_at` models the server-assigned write timestamp
(`firestore.SERVER_TIMESTAMP`). -/
structure StoredDoc where
  name : String
  description : String
  structured_description : String
  tags : List String
  updated_at : Nat
deriving DecidableEq, Repr

/-- One entry of the `results` list built by `search_employees_by_tags`
(the dict with keys `name`, `description`, `tags`, `match_count`,
`matched_keywords`). -/
structure RankedResult where
  name : String
  description : String
  tags : List String
  match_count : Nat
  matched_keywords : List String
deriving DecidableEq, Repr

/-- The whitespace characters removed by the Python string strip method
(ASCII range). -/
def pySpace (c : Char) : Bool :=
  c = ' ' || c = '\t' || c = '\n' || c = '\r' || c = '\x0b' || c = '\x0c'

/-- Model of the Python strip call on a tag piece: drop leading and
trailing whitespace. -/
def pyStrip (s : String) : String :=
  String.mk (((s.toList.dropWhile pySpace).reverse.dropWhile pySpace).reverse)

/-- Helper for `pySplitComma`: `cur` holds the characters of the current
piece, reversed. -/
def splitCommaAux (cur : List Char) : List Char → List String
  | [] => [String.mk cur.reverse]
  | c :: cs =>
    if c = ',' then String.mk cur.reverse :: splitCommaAux [] cs
    else splitCommaAux (c :: cur) cs

/-- Model of the Python comma split of the response text: split on
every comma; the split of the empty string is the one-element list
holding the empty string, and empty pieces are kept. -/
def pySplitComma (s : String) : List String :=
  splitCommaAux [] s.toList

/-- Model of `extract_tags_with_gemini`: on a successful call, split
`response.text` on commas and strip surrounding whitespace from each
piece; on an exception, show an `st.error` message and return `[]`.
Returns the tag list together with the error messages displayed. -/
def extract_tags_with_gemini (resp : Except String String) :
    List String × List String :=
  match resp with
  | .ok text => ((pySplitComma text).map pyStrip, [])
  | .error e => ([], ["Gemini API Error: " ++ e])

/-- Model of `structure_description_with_gemini`: on a successful call, return
`response.text` unmodified; on an exception, show an `st.error` message
and return the literal fallback marker string. -/
def structure_description_with_gemini (resp : Except String String) :
    String × List String :=
  match resp with
  | .ok text => (text, [])
  | .error e => ("--- 構造化に失敗 ---", ["Gemini API Error (Structure): " ++ e])

/-- The `data` dict written by `save_employee_data`, with `updated_at`
set to the server write timestamp `now`. -/
def employeeDoc (now : Nat) (name description : String) (tags : List String)
    (structured_description : String) : StoredDoc :=
  ⟨name, description, structured_description, tags, now⟩

/-- Model of the keyed document write on the document whose id is the
name field of `data`:
replace the document with that id if the collection has one, create it
otherwise (document ids are unique in a collection). -/
def setDoc (data : StoredDoc) : List StoredDoc → List StoredDoc
  | [] => [data]
  | d :: ds => if d.name == data.name then data :: ds else d :: setDoc data ds

/-- Model of `save_employee_data`: build the `data` dict and upsert it keyed by
the employee name. -/
def save_employee_data (store : List StoredDoc) (now : Nat)
    (name description : String) (tags : List String)
    (structured_description : String) : List StoredDoc :=
  setDoc (employeeDoc now name description tags structured_description) store

/-- Model of `save_employee_data` with the outcome of the document-store write
made explicit: the function has no try/except, so a failing
`doc_ref.set` raises out of it and the store is left unchanged. -/
def save_employee_data_call (writeOk : Bool) (store : List StoredDoc)
    (now : Nat) (name description : String) (tags : List String)
    (structured_description : String) : Except String (List StoredDoc) :=
  if writeOk then
    .ok (save_employee_data store now name description tags structured_description)
  else
    .error "StoreError"

/-- The intersection `search_set.intersection(emp_tags)` of
`search_employees_by_tags`, as a duplicate-free list.  Python set
iteration order is unspecified; the order of first occurrence in
`search_tags` is used as its representative. -/
def match_tags (search_tags emp_tags : List String) : List String :=
  search_tags.dedup.filter (fun t => decide (t ∈ emp_tags))

/-- The loop body of `search_employees_by_tags` for one document:
`none` when `match_count > 0` fails, otherwise the result dict that is
appended to `results`. -/
def rankEntry (search_tags : List String) (d : StoredDoc) :
    Option RankedResult :=
  if 0 < (match_tags search_tags d.tags).length then
    some ⟨d.name, d.description, d.tags, (match_tags search_tags d.tags).length,
      match_tags search_tags d.tags⟩
  else
    none

/-- The order used by the reverse sort on the `match_count` key: `a` may
precede `b` exactly when the match count of `b` is at most that of
`a`. -/
def rankLE (a b : RankedResult) : Prop :=
  b.match_count ≤ a.match_count

instance : DecidableRel rankLE :=
  fun a b => inferInstanceAs (Decidable (b.match_count ≤ a.match_count))

instance : IsTotal RankedResult rankLE :=
  ⟨fun a b => Nat.le_total b.match_count a.match_count⟩

instance : IsTrans RankedResult rankLE :=
  ⟨fun _ _ _ hab hbc => le_trans hbc hab⟩

/-- The body of `search_employees_by_tags` once the collection has been
read: one entry per document with a non-empty tag intersection, in store
order, sorted by `match_count` descending.  The Python list sort is
stable; `List.insertionSort` with `rankLE` is the stable descending
sort. -/
def rank (search_tags : List String) (docs : List StoredDoc) :
    List RankedResult :=
  List.insertionSort rankLE (docs.filterMap (rankEntry search_tags))

/-- Model of `search_employees_by_tags`: read the whole `employees` collection
(`employees_ref.stream()`, whose outcome is the `stream` parameter) and
rank the documents against `search_tags`.  The function has no
try/except, so a failing read raises out of it. -/
def search_employees_by_tags (stream : Except String (List StoredDoc))
    (search_tags : List String) : Except String (List RankedResult) :=
  match stream with
  | .error e => .error e
  | .ok docs => .ok (rank search_tags docs)

/-- The outcomes of the external calls made by one submission of the
registration form: the two Gemini responses and whether each of the two
Firestore writes succeeds, with their server timestamps. -/
structure RegistrationEnv where
  tagResp : Except String String
  structResp : Except String String
  write1Ok : Bool
  write2Ok : Bool
  now1 : Nat
  now2 : Nat
deriving Repr

/-- What one run of the registration handler leaves behind: the store
contents, the messages shown (`st.error` / `st.success`), and the
exception escaping the handler uncaught, if any. -/
structure RegOutcome where
  store : List StoredDoc
  messages : List String
  uncaught : Option String
deriving DecidableEq, Repr

/-- The `register_form` submission handler: guarded by
`if submitted and name_input and desc_input` (a Python empty string is
falsy), it extracts tags, structures the description, and saves the
record — and then, further down the same block, saves the identical
record a second time.  A raising save aborts the rest of the block. -/
def register_form (submitted : Bool) (name_input desc_input : String)
    (env : RegistrationEnv) (store : List StoredDoc) : RegOutcome :=
  if submitted && name_input != "" && desc_input != "" then
    let et := extract_tags_with_gemini env.tagResp
    let sd := structure_description_with_gemini env.structResp
    let msgs := et.2 ++ sd.2
    match save_employee_data_call env.write1Ok store env.now1
        name_input desc_input et.1 sd.1 with
    | .error e => ⟨store, msgs, some e⟩
    | .ok store1 =>
      let msgs1 := msgs ++
        ["**" ++ name_input ++ "** さんの情報をデータベースに登録/更新しました！"]
      match save_employee_data_call env.write2Ok store1 env.now2
          name_input desc_input et.1 sd.1 with
      | .error e => ⟨store1, msgs1, some e⟩
      | .ok store2 =>
        ⟨store2, msgs1 ++ [name_input ++ " さんの情報をデータベースに登録しました！"], none⟩
  else
    ⟨store, [], none⟩

/-! ### Lemmas about the matching logic -/

theorem mem_match_tags {qs tags : List String} {t : String} :
    t ∈ match_tags qs tags ↔ t ∈ qs ∧ t ∈ tags := by
  simp [match_tags, List.mem_filter, List.mem_dedup]

theorem nodup_match_tags (qs tags : List String) :
    (match_tags qs tags).Nodup :=
  (List.nodup_dedup qs).filter _

theorem match_tags_length_eq_card (qs tags : List String) :
    (match_tags qs tags).length = (qs.toFinset ∩ tags.toFinset).card := by
  rw [← List.toFinset_card_of_nodup (nodup_match_tags qs tags)]
  congr 1
  ext t
  simp [mem_match_tags]

theorem rankEntry_eq_some {qs : List String} {d : StoredDoc} {t : String}
    (ht : t ∈ qs) (htd : t ∈ d.tags) :
    rankEntry qs d = some ⟨d.name, d.description, d.tags,
      (match_tags qs d.tags).length, match_tags qs d.tags⟩ := by
  have hmem : t ∈ match_tags qs d.tags := mem_match_tags.mpr ⟨ht, htd⟩
  have hlen : 0 < (match_tags qs d.tags).length :=
    List.length_pos.mpr (List.ne_nil_of_mem hmem)
  rw [rankEntry, if_pos hlen]

/-- Every entry of the output of `rank` originates in a stored document
with a non-empty tag intersection, and carries the fields of that
document. -/
theorem rank_mem_src {qs : List String} {docs : List StoredDoc}
    {r : RankedResult} (hr : r ∈ rank qs docs) :
    ∃ d ∈ docs, r.name = d.name ∧ r.description = d.description ∧
      r.tags = d.tags ∧ ∃ t, t ∈ qs ∧ t ∈ d.tags := by
  rw [rank, List.mem_insertionSort] at hr
  obtain ⟨d, hd, he⟩ := List.mem_filterMap.mp hr
  by_cases h : 0 < (match_tags qs d.tags).length
  · rw [rankEntry, if_pos h, Option.some_inj] at he
    obtain ⟨t, htm⟩ := List.exists_mem_of_length_pos h
    have := mem_match_tags.mp htm
    exact ⟨d, hd, by rw [← he], by rw [← he], by rw [← he], t, this.1, this.2⟩
  · rw [rankEntry, if_neg h] at he
    exact absurd he (by simp)

/-! ### Claims about the Matcher -/

/-- C1: for every non-empty `query_tags` and every stored record whose
tags share at least one element with `query_tags` under exact string
equality, the record appears in the output of the ranking search with
`match_count` equal to the cardinality of `set(query_tags) ∩ set(tags)`
(hence at least 1) and `matched_keywords` equal, as a set, to that
intersection. -/
theorem C1_overlapping_record_is_ranked (qs : List String)
    (docs : List StoredDoc) (d : StoredDoc) (t : String)
    (hq : qs ≠ []) (hd : d ∈ docs) (ht : t ∈ qs) (htd : t ∈ d.tags) :
    ∃ r ∈ rank qs docs,
      r.name = d.name ∧ r.description = d.description ∧ r.tags = d.tags ∧
      r.match_count = (qs.toFinset ∩ d.tags.toFinset).card ∧
      1 ≤ r.match_count ∧
      ∀ s, s ∈ r.matched_keywords ↔ s ∈ qs ∧ s ∈ d.tags := by
  have hmem : t ∈ match_tags qs d.tags := mem_match_tags.mpr ⟨ht, htd⟩
  have hlen : 0 < (match_tags qs d.tags).length :=
    List.length_pos.mpr (List.ne_nil_of_mem hmem)
  refine ⟨⟨d.name, d.description, d.tags, (match_tags qs d.tags).length,
    match_tags qs d.tags⟩, ?_, rfl, rfl, rfl,
    match_tags_length_eq_card qs d.tags, hlen, fun s => mem_match_tags⟩
  rw [rank, List.mem_insertionSort]
  exact List.mem_filterMap.mpr ⟨d, hd, rankEntry_eq_some ht htd⟩

/-- The record of scenario A of the specification. -/
def taroDoc : StoredDoc := ⟨"Taro", "desc", "prof", ["Python", "AWS", "Sales"], 0⟩

/-- Witness for C1 at scenario A: searching `["Python", "Java"]` over a
store holding Taro with tags `["Python", "AWS", "Sales"]`. -/
theorem C1_overlapping_record_is_ranked_witness :
    ∃ r ∈ rank ["Python", "Java"] [taroDoc],
      r.name = taroDoc.name ∧ r.description = taroDoc.description ∧
      r.tags = taroDoc.tags ∧
      r.match_count =
        ((["Python", "Java"] : List String).toFinset ∩
          taroDoc.tags.toFinset).card ∧
      1 ≤ r.match_count ∧
      ∀ s, s ∈ r.matched_keywords ↔ s ∈ ["Python", "Java"] ∧ s ∈ taroDoc.tags :=
  C1_overlapping_record_is_ranked ["Python", "Java"] [taroDoc] taroDoc "Python"
    (by decide) (by decide) (by decide) (by decide)

/-- C2: a record with zero tag overlap never appears in the ranking
output (stated for stores whose document names are distinct, as
Firestore document ids are); with an empty query-tag list the search
returns the empty result list for every store, as a normal `.ok`
outcome, not a failure. -/
theorem C2_zero_overlap_record_absent :
    (∀ (qs : List String) (docs : List StoredDoc) (d : StoredDoc),
      (docs.map StoredDoc.name).Nodup → d ∈ docs →
      (∀ t, t ∈ qs → t ∉ d.tags) →
      ∀ r ∈ rank qs docs, r.name ≠ d.name) ∧
    (∀ docs : List StoredDoc,
      rank [] docs = [] ∧
      search_employees_by_tags (Except.ok docs) [] = Except.ok []) := by
  constructor
  · intro qs docs d hnd hd hno r hr hname
    obtain ⟨d', hd', hn, _, _, t, ht, htd⟩ := rank_mem_src hr
    have hdd : d' = d :=
      List.inj_on_of_nodup_map hnd hd' hd (by rw [← hn, hname])
    rw [hdd] at htd
    exact hno t ht htd
  · intro docs
    have h : rank [] docs = [] := by
      rw [rank]
      have hfm : docs.filterMap (rankEntry []) = [] := by
        rw [List.filterMap_eq_nil_iff]
        intro d _
        rw [rankEntry]
        simp [match_tags]
      rw [hfm]
      rfl
    exact ⟨h, by rw [search_employees_by_tags, h]⟩

/-- Witness for C2 at scenario B: a query with no overlap leaves Taro
out, and the empty query yields the empty `.ok` result. -/
theorem C2_zero_overlap_record_absent_witness :
    (∀ r ∈ rank ["Blockchain"] [taroDoc], r.name ≠ taroDoc.name) ∧
    rank [] [taroDoc] = [] ∧
    search_employees_by_tags (Except.ok [taroDoc]) [] = Except.ok [] :=
  ⟨C2_zero_overlap_record_absent.1 ["Blockchain"] [taroDoc] taroDoc
      (by decide) (by decide) (by decide),
    (C2_zero_overlap_record_absent.2 [taroDoc]).1,
    (C2_zero_overlap_record_absent.2 [taroDoc]).2⟩

/-! ### Sortedness and stability of the ranking -/

theorem rank_sorted (qs : List String) (docs : List StoredDoc) :
    List.Pairwise rankLE (rank qs docs) :=
  List.sorted_insertionSort rankLE (docs.filterMap (rankEntry qs))

/-- Inserting `a` with the ranking order touches no element whose match
count differs from that of `a` at the insertion point: the `match_count = k` filter
either gains `a` at the front (when `a` has count `k`) or is unchanged. -/
theorem filter_count_orderedInsert (k : Nat) (a : RankedResult)
    (l : List RankedResult) :
    (List.orderedInsert rankLE a l).filter (fun r => r.match_count == k) =
      if a.match_count == k then
        a :: l.filter (fun r => r.match_count == k)
      else
        l.filter (fun r => r.match_count == k) := by
  induction l with
  | nil =>
    rw [List.orderedInsert_nil, List.filter_cons]
  | cons b t ih =>
    by_cases h : rankLE a b
    · rw [List.orderedInsert, if_pos h, List.filter_cons, List.filter_cons]
    · rw [List.orderedInsert, if_neg h, List.filter_cons, ih, List.filter_cons]
      by_cases hak : (a.match_count == k) = true
      · have hb : ¬((b.match_count == k) = true) := by
          rw [rankLE, Nat.not_le] at h
          rw [beq_iff_eq] at hak ⊢
          omega
        simp [hak, hb]
      · simp [hak]

/-- The stable sort of the ranking preserves, for each match count, the
relative order of the unsorted result list. -/
theorem filter_count_insertionSort (k : Nat) (l : List RankedResult) :
    (List.insertionSort rankLE l).filter (fun r => r.match_count == k) =
      l.filter (fun r => r.match_count == k) := by
  induction l with
  | nil => rfl
  | cons a t ih =>
    rw [List.insertionSort, filter_count_orderedInsert, ih, List.filter_cons]

/-- C3: the result list of the ranking search is sorted by `match_count`
in descending order, and entries with equal `match_count` keep the
relative order of the unsorted per-record scan, which processes the
stored records in the order the collection read returned them (the sort
is stable). -/
theorem C3_sorted_descending_and_stable (qs : List String)
    (docs : List StoredDoc) :
    List.Pairwise rankLE (rank qs docs) ∧
    ∀ k : Nat,
      (rank qs docs).filter (fun r => r.match_count == k) =
        (docs.filterMap (rankEntry qs)).filter (fun r => r.match_count == k) :=
  ⟨rank_sorted qs docs, fun k => filter_count_insertionSort k _⟩

/-! ### Lemmas about the keyed upsert -/

theorem mem_setDoc {data x : StoredDoc} :
    ∀ store : List StoredDoc, x ∈ setDoc data store → x = data ∨ x ∈ store
  | [], h => by simpa [setDoc] using h
  | d :: ds, h => by
    rw [setDoc] at h
    by_cases hd : (d.name == data.name) = true
    · rw [if_pos hd] at h
      rcases List.mem_cons.mp h with h | h
      · exact .inl h
      · exact .inr (List.mem_cons_of_mem d h)
    · rw [if_neg hd] at h
      rcases List.mem_cons.mp h with h | h
      · exact .inr (by rw [h]; exact List.mem_cons_self d ds)
      · rcases mem_setDoc ds h with h' | h'
        · exact .inl h'
        · exact .inr (List.mem_cons_of_mem d h')

/-- Writing twice under the same document id is the same as writing the
second document once. -/
theorem setDoc_setDoc {d₁ d₂ : StoredDoc} (h : d₁.name = d₂.name) :
    ∀ store : List StoredDoc, setDoc d₂ (setDoc d₁ store) = setDoc d₂ store
  | [] => by
    rw [setDoc, setDoc, setDoc, if_pos (beq_iff_eq.mpr h)]
  | d :: ds => by
    by_cases hd : (d.name == d₁.name) = true
    · have hd₂ : (d.name == d₂.name) = true := by
        rw [beq_iff_eq] at hd ⊢
        rw [hd, h]
      rw [setDoc, if_pos hd, setDoc, if_pos (beq_iff_eq.mpr h), setDoc, if_pos hd₂]
    · have hd₂ : ¬((d.name == d₂.name) = true) := by
        rw [beq_iff_eq] at hd ⊢
        rw [← h]
        exact hd
      rw [setDoc, if_neg hd, setDoc, if_neg hd₂, setDoc, if_neg hd₂,
        setDoc_setDoc h ds]

/-- In a store whose document names are distinct, the upsert leaves
exactly one document under the written name: the written one. -/
theorem setDoc_filter_eq {data : StoredDoc} :
    ∀ store : List StoredDoc, (store.map StoredDoc.name).Nodup →
      (setDoc data store).filter (fun d => d.name == data.name) = [data]
  | [], _ => by simp [setDoc]
  | d :: ds, hnd => by
    rw [List.map_cons, List.nodup_cons] at hnd
    by_cases hd : (d.name == data.name) = true
    · rw [setDoc, if_pos hd, List.filter_cons]
      have hnone : ds.filter (fun x => x.name == data.name) = [] := by
        rw [List.filter_eq_nil_iff]
        intro x hx hbeq
        apply hnd.1
        rw [beq_iff_eq] at hd hbeq
        rw [hd, ← hbeq]
        exact List.mem_map.mpr ⟨x, hx, rfl⟩
      simp [hnone]
    · rw [setDoc, if_neg hd, List.filter_cons]
      simp only [hd, if_false]
      exact setDoc_filter_eq ds hnd.2

/-- The upsert leaves every document stored under a different name
untouched. -/
theorem setDoc_filter_ne (data : StoredDoc) :
    ∀ store : List StoredDoc,
      (setDoc data store).filter (fun d => d.name != data.name) =
        store.filter (fun d => d.name != data.name)
  | [] => by simp [setDoc]
  | d :: ds => by
    by_cases hd : (d.name == data.name) = true
    · rw [setDoc, if_pos hd, List.filter_cons, List.filter_cons]
      simp [hd, bne]
    · rw [setDoc, if_neg hd, List.filter_cons, List.filter_cons,
        setDoc_filter_ne data ds]

/-- The upsert preserves distinctness of the stored document names. -/
theorem setDoc_names_nodup {data : StoredDoc} :
    ∀ store : List StoredDoc, (store.map StoredDoc.name).Nodup →
      ((setDoc data store).map StoredDoc.name).Nodup
  | [], _ => by simp [setDoc]
  | d :: ds, hnd => by
    rw [List.map_cons, List.nodup_cons] at hnd
    by_cases hd : (d.name == data.name) = true
    · rw [setDoc, if_pos hd, List.map_cons, List.nodup_cons]
      refine ⟨?_, hnd.2⟩
      rw [← eq_of_beq hd]
      exact hnd.1
    · rw [setDoc, if_neg hd, List.map_cons, List.nodup_cons]
      refine ⟨?_, setDoc_names_nodup ds hnd.2⟩
      intro hmem
      obtain ⟨x, hx, hxn⟩ := List.mem_map.mp hmem
      rcases mem_setDoc _ hx with h' | h'
      · apply hd
        rw [beq_iff_eq, ← hxn, h']
      · exact hnd.1 (hxn ▸ List.mem_map.mpr ⟨x, h', rfl⟩)

/-! ### Claims about the record lifecycle -/

/-- C4: `save_employee_data` keys the stored document by the record's
name: a write under an existing name fully replaces the prior record
(afterwards, exactly the newly written document is stored under that
name, and every other document is untouched), a second write with the
same field values overwrites the first so that only the timestamp of
the second write remains, and name distinctness is preserved. -/
theorem C4_save_is_keyed_overwrite (store : List StoredDoc) (n₁ n₂ : Nat)
    (name description : String) (tags : List String) (sdesc : String)
    (hnd : (store.map StoredDoc.name).Nodup) :
    save_employee_data (save_employee_data store n₁ name description tags sdesc)
        n₂ name description tags sdesc =
      save_employee_data store n₂ name description tags sdesc ∧
    (save_employee_data store n₁ name description tags sdesc).filter
        (fun d => d.name == name) =
      [employeeDoc n₁ name description tags sdesc] ∧
    (save_employee_data store n₁ name description tags sdesc).filter
        (fun d => d.name != name) =
      store.filter (fun d => d.name != name) ∧
    ((save_employee_data store n₁ name description tags sdesc).map
        StoredDoc.name).Nodup := by
  exact ⟨setDoc_setDoc (by rfl) store,
    @setDoc_filter_eq (employeeDoc n₁ name description tags sdesc) store hnd,
    setDoc_filter_ne (employeeDoc n₁ name description tags sdesc) store,
    @setDoc_names_nodup (employeeDoc n₁ name description tags sdesc) store hnd⟩

/-- Witness for C4: overwriting the record of Taro in a one-record store. -/
theorem C4_save_is_keyed_overwrite_witness :
    save_employee_data (save_employee_data [taroDoc] 5 "Taro" "new" ["Java"] "p")
        6 "Taro" "new" ["Java"] "p" =
      save_employee_data [taroDoc] 6 "Taro" "new" ["Java"] "p" ∧
    (save_employee_data [taroDoc] 5 "Taro" "new" ["Java"] "p").filter
        (fun d => d.name == "Taro") = [employeeDoc 5 "Taro" "new" ["Java"] "p"] ∧
    (save_employee_data [taroDoc] 5 "Taro" "new" ["Java"] "p").filter
        (fun d => d.name != "Taro") = [taroDoc].filter (fun d => d.name != "Taro") ∧
    ((save_employee_data [taroDoc] 5 "Taro" "new" ["Java"] "p").map
        StoredDoc.name).Nodup :=
  C4_save_is_keyed_overwrite [taroDoc] 5 6 "Taro" "new" ["Java"] "p" (by decide)

/-! ### Set semantics of the matching -/

/-- Two stored documents that agree on name and description and whose
tag lists are equal as sets (duplicates and order disregarded). -/
def SameTagSet (d₁ d₂ : StoredDoc) : Prop :=
  d₁.name = d₂.name ∧ d₁.description = d₂.description ∧
    ∀ t, t ∈ d₁.tags ↔ t ∈ d₂.tags

/-- Two ranked results that agree on everything the matching logic
determines: name, description, match count, and the matched keywords as
a set. -/
def SameMatch (r₁ r₂ : RankedResult) : Prop :=
  r₁.name = r₂.name ∧ r₁.description = r₂.description ∧
    r₁.match_count = r₂.match_count ∧
    ∀ t, t ∈ r₁.matched_keywords ↔ t ∈ r₂.matched_keywords

theorem match_tags_length_congr {qs₁ qs₂ tg₁ tg₂ : List String}
    (hq : ∀ t, t ∈ qs₁ ↔ t ∈ qs₂) (htg : ∀ t, t ∈ tg₁ ↔ t ∈ tg₂) :
    (match_tags qs₁ tg₁).length = (match_tags qs₂ tg₂).length :=
  ((List.perm_ext_iff_of_nodup (nodup_match_tags qs₁ tg₁)
      (nodup_match_tags qs₂ tg₂)).mpr
    (fun t => by
      rw [mem_match_tags, mem_match_tags, hq t, htg t])).length_eq

theorem filterMap_rankEntry_congr {qs₁ qs₂ : List String}
    {docs₁ docs₂ : List StoredDoc}
    (hq : ∀ t, t ∈ qs₁ ↔ t ∈ qs₂)
    (hd : List.Forall₂ SameTagSet docs₁ docs₂) :
    List.Forall₂ SameMatch (docs₁.filterMap (rankEntry qs₁))
      (docs₂.filterMap (rankEntry qs₂)) := by
  induction hd with
  | nil => exact .nil
  | @cons d₁ d₂ t₁ t₂ hdd hrest ih =>
    rw [List.filterMap_cons, List.filterMap_cons]
    have hlen : (match_tags qs₁ d₁.tags).length =
        (match_tags qs₂ d₂.tags).length :=
      match_tags_length_congr hq hdd.2.2
    by_cases hpos : 0 < (match_tags qs₁ d₁.tags).length
    · rw [rankEntry, if_pos hpos, rankEntry, if_pos (hlen ▸ hpos)]
      refine .cons ⟨hdd.1, hdd.2.1, hlen, fun t => ?_⟩ ih
      rw [mem_match_tags, mem_match_tags, hq t, hdd.2.2 t]
    · rw [rankEntry, if_neg hpos, rankEntry, if_neg (hlen ▸ hpos)]
      exact ih

theorem forall₂_orderedInsert {a b : RankedResult}
    {l₁ l₂ : List RankedResult} (hab : SameMatch a b)
    (h : List.Forall₂ SameMatch l₁ l₂) :
    List.Forall₂ SameMatch (List.orderedInsert rankLE a l₁)
      (List.orderedInsert rankLE b l₂) := by
  induction h with
  | nil => exact .cons hab .nil
  | @cons x y t₁ t₂ hxy hrest ih =>
    by_cases hr : rankLE a x
    · have hr' : rankLE b y := by
        rw [rankLE] at hr ⊢
        rw [← hab.2.2.1, ← hxy.2.2.1]
        exact hr
      rw [List.orderedInsert, if_pos hr, List.orderedInsert, if_pos hr']
      exact .cons hab (.cons hxy hrest)
    · have hr' : ¬rankLE b y := by
        rw [rankLE] at hr ⊢
        rw [← hab.2.2.1, ← hxy.2.2.1]
        exact hr
      rw [List.orderedInsert, if_neg hr, List.orderedInsert, if_neg hr']
      exact .cons hxy ih

theorem forall₂_insertionSort {l₁ l₂ : List RankedResult}
    (h : List.Forall₂ SameMatch l₁ l₂) :
    List.Forall₂ SameMatch (List.insertionSort rankLE l₁)
      (List.insertionSort rankLE l₂) := by
  induction h with
  | nil => exact .nil
  | cons hxy _ ih => exact forall₂_orderedInsert hxy ih

/-- C8: the matching treats tags as sets under exact string equality.
Replacing `query_tags` by any list with the same string members
(reordered, duplicates added or removed) and each record's tags by any
list with the same members leaves the surviving records, their match
counts, and their matched keywords (as sets) unchanged, entry by entry;
and a record whose sole tag differs from the queried tag — for example
only in case or surrounding whitespace — never matches. -/
theorem C8_exact_string_set_matching (qs₁ qs₂ : List String)
    (docs₁ docs₂ : List StoredDoc)
    (hq : ∀ t, t ∈ qs₁ ↔ t ∈ qs₂)
    (hd : List.Forall₂ SameTagSet docs₁ docs₂) :
    List.Forall₂ SameMatch (rank qs₁ docs₁) (rank qs₂ docs₂) ∧
    ∀ (t₁ t₂ : String) (d : StoredDoc),
      t₁ ≠ t₂ → d.tags = [t₂] → rank [t₁] [d] = [] := by
  constructor
  · exact forall₂_insertionSort (filterMap_rankEntry_congr hq hd)
  · intro t₁ t₂ d hne htags
    rw [rank]
    have hmt : match_tags [t₁] d.tags = [] := by
      rw [htags, match_tags]
      rw [List.dedup_cons_of_not_mem (by simp), List.dedup_nil]
      simp [hne]
    rw [List.filterMap_cons, rankEntry, hmt]
    simp [List.insertionSort]

/-- Witness for C8: a query with duplicates and in another order, a
record with duplicated tags, and the case-sensitive non-match of
`"python"` against `"Python"`. -/
theorem C8_exact_string_set_matching_witness :
    List.Forall₂ SameMatch
      (rank ["Python", "Python", "AWS"]
        [⟨"Taro", "d", "s", ["AWS", "AWS", "Go"], 0⟩])
      (rank ["AWS", "Python"]
        [⟨"Taro", "d", "s", ["Go", "AWS"], 0⟩]) ∧
    ∀ (t₁ t₂ : String) (d : StoredDoc),
      t₁ ≠ t₂ → d.tags = [t₂] → rank [t₁] [d] = [] :=
  C8_exact_string_set_matching ["Python", "Python", "AWS"] ["AWS", "Python"]
    [⟨"Taro", "d", "s", ["AWS", "AWS", "Go"], 0⟩]
    [⟨"Taro", "d", "s", ["Go", "AWS"], 0⟩]
    (by intro t; simp only [List.mem_cons, List.not_mem_nil, or_false]; tauto)
    (.cons ⟨rfl, rfl, by
      intro t
      simp only [List.mem_cons, List.not_mem_nil, or_false]
      tauto⟩ .nil)

/-! ### The registration handler paths -/

/-- A valid submission with both store writes succeeding saves the
identical record twice and shows the two success banners. -/
theorem register_form_ok (env : RegistrationEnv) (store : List StoredDoc)
    (name_input desc_input : String)
    (hw1 : env.write1Ok = true) (hw2 : env.write2Ok = true)
    (hn : name_input ≠ "") (hd : desc_input ≠ "") :
    register_form true name_input desc_input env store =
      ⟨save_employee_data
          (save_employee_data store env.now1 name_input desc_input
            (extract_tags_with_gemini env.tagResp).1
            (structure_description_with_gemini env.structResp).1)
          env.now2 name_input desc_input
          (extract_tags_with_gemini env.tagResp).1
          (structure_description_with_gemini env.structResp).1,
        (extract_tags_with_gemini env.tagResp).2 ++
            (structure_description_with_gemini env.structResp).2 ++
            ["**" ++ name_input ++ "** さんの情報をデータベースに登録/更新しました！"] ++
            [name_input ++ " さんの情報をデータベースに登録しました！"],
        none⟩ := by
  have h1 : (name_input != "") = true := bne_iff_ne.mpr hn
  have h2 : (desc_input != "") = true := bne_iff_ne.mpr hd
  simp only [register_form, h1, h2, Bool.and_self, Bool.true_and, Bool.and_true,
    if_true, hw1, hw2, save_employee_data_call, List.append_assoc]

/-- A valid submission whose first store write fails: the raised
StoreError escapes the handler, no success banner is shown, and the
store is left as it was. -/
theorem register_form_fail1 (env : RegistrationEnv) (store : List StoredDoc)
    (name_input desc_input : String)
    (hw1 : env.write1Ok = false) (hn : name_input ≠ "") (hd : desc_input ≠ "") :
    register_form true name_input desc_input env store =
      ⟨store,
        (extract_tags_with_gemini env.tagResp).2 ++
          (structure_description_with_gemini env.structResp).2,
        some "StoreError"⟩ := by
  have h1 : (name_input != "") = true := bne_iff_ne.mpr hn
  have h2 : (desc_input != "") = true := bne_iff_ne.mpr hd
  simp only [register_form, h1, h2, Bool.and_self, Bool.true_and, Bool.and_true,
    if_true, hw1, save_employee_data_call, Bool.false_eq_true, if_false]

/-- Writing the same record twice leaves, under the written name,
exactly the record with the second timestamp. -/
theorem save_twice_filter_eq (store : List StoredDoc) (n₁ n₂ : Nat)
    (name description : String) (tags : List String) (sdesc : String)
    (hnd : (store.map StoredDoc.name).Nodup) :
    (save_employee_data
        (save_employee_data store n₁ name description tags sdesc)
        n₂ name description tags sdesc).filter (fun d => d.name == name) =
      [employeeDoc n₂ name description tags sdesc] := by
  rw [show save_employee_data
        (save_employee_data store n₁ name description tags sdesc)
        n₂ name description tags sdesc =
      save_employee_data store n₂ name description tags sdesc from
    setDoc_setDoc (by rfl) store]
  exact @setDoc_filter_eq (employeeDoc n₂ name description tags sdesc) store hnd

/-- Writing the same record twice leaves the documents of every other
name untouched. -/
theorem save_twice_filter_ne (store : List StoredDoc) (n₁ n₂ : Nat)
    (name description : String) (tags : List String) (sdesc : String) :
    (save_employee_data
        (save_employee_data store n₁ name description tags sdesc)
        n₂ name description tags sdesc).filter (fun d => d.name != name) =
      store.filter (fun d => d.name != name) := by
  rw [show save_employee_data
        (save_employee_data store n₁ name description tags sdesc)
        n₂ name description tags sdesc =
      save_employee_data store n₂ name description tags sdesc from
    setDoc_setDoc (by rfl) store]
  exact setDoc_filter_ne (employeeDoc n₂ name description tags sdesc) store

/-! ### Error handling and workflow claims -/

/-- The environment of the C5 counterexample: both AI calls succeed and
the first document-store write fails. -/
def storeFailEnv : RegistrationEnv :=
  ⟨.ok "Python, AWS", .ok "profile", false, true, 1, 2⟩

/-- C5 counterexample: a StoreError is not caught at the point of the
call and not converted into a message — it escapes the registration
handler uncaught, and a failing collection read raises out of
`search_employees_by_tags`. -/
theorem C5_counterexample_store_error_escapes :
    (register_form true "Taro" "desc" storeFailEnv []).uncaught =
      some "StoreError" ∧
    search_employees_by_tags (Except.error "boom") ["Python"] =
      Except.error "boom" :=
  ⟨rfl, rfl⟩

/-- C5 (amended): errors of the AI collaborator calls are caught at the
point of the call and converted into user-visible messages (extraction
degrades to `[]`, structuring to the fallback marker), but errors of the
document store are not caught anywhere in the application: they
propagate uncaught out of `save_employee_data` and out of
`search_employees_by_tags`, and out of the registration handler itself;
the failed upsert aborts only the current workflow invocation, leaving
the previously stored state unchanged. -/
theorem C5_ai_caught_store_uncaught (m : String) (qs : List String)
    (env : RegistrationEnv) (store : List StoredDoc)
    (name_input desc_input : String) (now : Nat) (tags : List String)
    (sdesc : String)
    (hw1 : env.write1Ok = false) (hn : name_input ≠ "") (hd : desc_input ≠ "") :
    extract_tags_with_gemini (Except.error m) =
      ([], ["Gemini API Error: " ++ m]) ∧
    structure_description_with_gemini (Except.error m) =
      ("--- 構造化に失敗 ---", ["Gemini API Error (Structure): " ++ m]) ∧
    save_employee_data_call false store now name_input desc_input tags sdesc =
      Except.error "StoreError" ∧
    search_employees_by_tags (Except.error m) qs = Except.error m ∧
    (register_form true name_input desc_input env store).uncaught =
      some "StoreError" ∧
    (register_form true name_input desc_input env store).store = store := by
  have h := register_form_fail1 env store name_input desc_input hw1 hn hd
  exact ⟨rfl, rfl, rfl, rfl, by rw [h], by rw [h]⟩

/-- Witness for C5 (amended) at a concrete failing write. -/
theorem C5_ai_caught_store_uncaught_witness :
    extract_tags_with_gemini (Except.error "boom") =
      ([], ["Gemini API Error: " ++ "boom"]) ∧
    structure_description_with_gemini (Except.error "boom") =
      ("--- 構造化に失敗 ---", ["Gemini API Error (Structure): " ++ "boom"]) ∧
    save_employee_data_call false [taroDoc] 3 "Hana" "d" ["x"] "s" =
      Except.error "StoreError" ∧
    search_employees_by_tags (Except.error "boom") ["Python"] =
      Except.error "boom" ∧
    (register_form true "Hana" "d" storeFailEnv [taroDoc]).uncaught =
      some "StoreError" ∧
    (register_form true "Hana" "d" storeFailEnv [taroDoc]).store = [taroDoc] :=
  C5_ai_caught_store_uncaught "boom" ["Python"] storeFailEnv [taroDoc]
    "Hana" "d" 3 ["x"] "s" rfl (by decide) (by decide)

/-- C6: if the AI call of the tag extraction fails, the extractor
reports the error and returns the empty list without raising, and the
registration workflow still completes: the structurer output is
persisted in a record with `tags = []` under the submitted name. -/
theorem C6_extraction_failure_still_persists (m : String)
    (env : RegistrationEnv) (store : List StoredDoc)
    (name_input desc_input : String)
    (htag : env.tagResp = .error m)
    (hw1 : env.write1Ok = true) (hw2 : env.write2Ok = true)
    (hn : name_input ≠ "") (hd : desc_input ≠ "")
    (hnd : (store.map StoredDoc.name).Nodup) :
    (extract_tags_with_gemini env.tagResp).1 = [] ∧
    (extract_tags_with_gemini env.tagResp).2 = ["Gemini API Error: " ++ m] ∧
    (register_form true name_input desc_input env store).uncaught = none ∧
    (register_form true name_input desc_input env store).store.filter
        (fun d => d.name == name_input) =
      [employeeDoc env.now2 name_input desc_input []
        (structure_description_with_gemini env.structResp).1] := by
  have hok := register_form_ok env store name_input desc_input hw1 hw2 hn hd
  have het : (extract_tags_with_gemini env.tagResp).1 = [] := by rw [htag]; rfl
  refine ⟨het, by rw [htag]; rfl, by rw [hok], ?_⟩
  rw [hok, het]
  exact save_twice_filter_eq store env.now1 env.now2 name_input desc_input
    [] (structure_description_with_gemini env.structResp).1 hnd

/-- The environment of the C6 witness: the extraction call fails. -/
def extractFailEnv : RegistrationEnv :=
  ⟨.error "boom", .ok "prof", true, true, 1, 2⟩

/-- Witness for C6: a failing extraction call on an empty store. -/
theorem C6_extraction_failure_still_persists_witness :
    (extract_tags_with_gemini extractFailEnv.tagResp).1 = [] ∧
    (extract_tags_with_gemini extractFailEnv.tagResp).2 =
      ["Gemini API Error: " ++ "boom"] ∧
    (register_form true "Taro" "desc" extractFailEnv []).uncaught = none ∧
    (register_form true "Taro" "desc" extractFailEnv []).store.filter
        (fun d => d.name == "Taro") =
      [employeeDoc 2 "Taro" "desc" []
        (structure_description_with_gemini extractFailEnv.structResp).1] :=
  C6_extraction_failure_still_persists "boom" extractFailEnv
    [] "Taro" "desc" rfl rfl rfl (by decide) (by decide) (by decide)

/-- C7: if the AI call of the structuring fails, the structurer returns
the literal fallback marker string without raising, and the persistence
step still runs: the record is stored with the fallback string as its
structured description. -/
theorem C7_structuring_failure_stores_fallback (m : String)
    (env : RegistrationEnv) (store : List StoredDoc)
    (name_input desc_input : String)
    (hst : env.structResp = .error m)
    (hw1 : env.write1Ok = true) (hw2 : env.write2Ok = true)
    (hn : name_input ≠ "") (hd : desc_input ≠ "")
    (hnd : (store.map StoredDoc.name).Nodup) :
    (structure_description_with_gemini env.structResp).1 =
      "--- 構造化に失敗 ---" ∧
    (register_form true name_input desc_input env store).uncaught = none ∧
    (register_form true name_input desc_input env store).store.filter
        (fun d => d.name == name_input) =
      [employeeDoc env.now2 name_input desc_input
        (extract_tags_with_gemini env.tagResp).1 "--- 構造化に失敗 ---"] := by
  have hok := register_form_ok env store name_input desc_input hw1 hw2 hn hd
  have hsd : (structure_description_with_gemini env.structResp).1 =
      "--- 構造化に失敗 ---" := by rw [hst]; rfl
  refine ⟨hsd, by rw [hok], ?_⟩
  rw [hok, hsd]
  exact save_twice_filter_eq store env.now1 env.now2 name_input desc_input
    (extract_tags_with_gemini env.tagResp).1 "--- 構造化に失敗 ---" hnd

/-- The environment of the C7 witness: the structuring call fails. -/
def structFailEnv : RegistrationEnv :=
  ⟨.ok "a,b", .error "boom", true, true, 1, 2⟩

/-- Witness for C7: a failing structuring call on an empty store. -/
theorem C7_structuring_failure_stores_fallback_witness :
    (structure_description_with_gemini structFailEnv.structResp).1 =
      "--- 構造化に失敗 ---" ∧
    (register_form true "Taro" "desc" structFailEnv []).uncaught = none ∧
    (register_form true "Taro" "desc" structFailEnv []).store.filter
        (fun d => d.name == "Taro") =
      [employeeDoc 2 "Taro" "desc"
        (extract_tags_with_gemini structFailEnv.tagResp).1
        "--- 構造化に失敗 ---"] :=
  C7_structuring_failure_stores_fallback "boom" structFailEnv
    [] "Taro" "desc" rfl rfl rfl (by decide) (by decide) (by decide)

/-- C9: the registration workflow advances past validation only when
both `name` and `description` are non-empty; otherwise nothing runs and
the handler is a no-op: the store is unchanged, no message is shown, and
nothing is raised. -/
theorem C9_empty_inputs_are_a_noop (submitted : Bool)
    (name_input desc_input : String) (env : RegistrationEnv)
    (store : List StoredDoc)
    (h : submitted = false ∨ name_input = "" ∨ desc_input = "") :
    register_form submitted name_input desc_input env store =
      ⟨store, [], none⟩ := by
  rcases h with h | h | h
  · simp [register_form, h]
  · simp [register_form, h]
  · simp [register_form, h]

/-- Witness for C9: a submission with an empty description. -/
theorem C9_empty_inputs_are_a_noop_witness :
    register_form true "Taro" ""
      (RegistrationEnv.mk (.ok "a,b") (.ok "prof") true true 1 2) [taroDoc] =
      ⟨[taroDoc], [], none⟩ :=
  C9_empty_inputs_are_a_noop true "Taro" ""
    (RegistrationEnv.mk (.ok "a,b") (.ok "prof") true true 1 2) [taroDoc]
    (Or.inr (Or.inr rfl))

/-- C10: a valid registration whose store writes succeed saves the
identical record twice (same name, description, tags and structured
description; only the server timestamp is assigned twice), the second
write overwriting the first, so the store afterwards holds exactly one
record under the submitted name — with the submitted field values and
the second timestamp — and every other record is untouched. -/
theorem C10_double_save_single_record (env : RegistrationEnv)
    (store : List StoredDoc) (name_input desc_input : String)
    (hw1 : env.write1Ok = true) (hw2 : env.write2Ok = true)
    (hn : name_input ≠ "") (hd : desc_input ≠ "")
    (hnd : (store.map StoredDoc.name).Nodup) :
    (register_form true name_input desc_input env store).store =
      save_employee_data
        (save_employee_data store env.now1 name_input desc_input
          (extract_tags_with_gemini env.tagResp).1
          (structure_description_with_gemini env.structResp).1)
        env.now2 name_input desc_input
        (extract_tags_with_gemini env.tagResp).1
        (structure_description_with_gemini env.structResp).1 ∧
    save_employee_data
        (save_employee_data store env.now1 name_input desc_input
          (extract_tags_with_gemini env.tagResp).1
          (structure_description_with_gemini env.structResp).1)
        env.now2 name_input desc_input
        (extract_tags_with_gemini env.tagResp).1
        (structure_description_with_gemini env.structResp).1 =
      save_employee_data store env.now2 name_input desc_input
        (extract_tags_with_gemini env.tagResp).1
        (structure_description_with_gemini env.structResp).1 ∧
    (register_form true name_input desc_input env store).store.filter
        (fun d => d.name == name_input) =
      [employeeDoc env.now2 name_input desc_input
        (extract_tags_with_gemini env.tagResp).1
        (structure_description_with_gemini env.structResp).1] ∧
    (register_form true name_input desc_input env store).store.filter
        (fun d => d.name != name_input) =
      store.filter (fun d => d.name != name_input) ∧
    (register_form true name_input desc_input env store).uncaught = none := by
  have hok := register_form_ok env store name_input desc_input hw1 hw2 hn hd
  refine ⟨by rw [hok], setDoc_setDoc (by rfl) store, ?_, ?_, by rw [hok]⟩
  · rw [hok]
    exact save_twice_filter_eq store env.now1 env.now2 name_input desc_input
      (extract_tags_with_gemini env.tagResp).1
      (structure_description_with_gemini env.structResp).1 hnd
  · rw [hok]
    exact save_twice_filter_ne store env.now1 env.now2 name_input desc_input
      (extract_tags_with_gemini env.tagResp).1
      (structure_description_with_gemini env.structResp).1

/-- Witness for C10: registering Hana over a store holding Taro. -/
theorem C10_double_save_single_record_witness :
    (register_form true "Hana" "desc"
      (RegistrationEnv.mk (.ok "Go,Rust") (.ok "prof") true true 1 2)
      [taroDoc]).store =
      save_employee_data
        (save_employee_data [taroDoc] 1 "Hana" "desc"
          (extract_tags_with_gemini (.ok "Go,Rust")).1
          (structure_description_with_gemini (.ok "prof")).1)
        2 "Hana" "desc"
        (extract_tags_with_gemini (.ok "Go,Rust")).1
        (structure_description_with_gemini (.ok "prof")).1 ∧
    save_employee_data
        (save_employee_data [taroDoc] 1 "Hana" "desc"
          (extract_tags_with_gemini (.ok "Go,Rust")).1
          (structure_description_with_gemini (.ok "prof")).1)
        2 "Hana" "desc"
        (extract_tags_with_gemini (.ok "Go,Rust")).1
        (structure_description_with_gemini (.ok "prof")).1 =
      save_employee_data [taroDoc] 2 "Hana" "desc"
        (extract_tags_with_gemini (.ok "Go,Rust")).1
        (structure_description_with_gemini (.ok "prof")).1 ∧
    (register_form true "Hana" "desc"
      (RegistrationEnv.mk (.ok "Go,Rust") (.ok "prof") true true 1 2)
      [taroDoc]).store.filter (fun d => d.name == "Hana") =
      [employeeDoc 2 "Hana" "desc"
        (extract_tags_with_gemini (.ok "Go,Rust")).1
        (structure_description_with_gemini (.ok "prof")).1] ∧
    (register_form true "Hana" "desc"
      (RegistrationEnv.mk (.ok "Go,Rust") (.ok "prof") true true 1 2)
      [taroDoc]).store.filter (fun d => d.name != "Hana") =
      [taroDoc].filter (fun d => d.name != "Hana") ∧
    (register_form true "Hana" "desc"
      (RegistrationEnv.mk (.ok "Go,Rust") (.ok "prof") true true 1 2)
      [taroDoc]).uncaught = none :=
  C10_double_save_single_record
    (RegistrationEnv.mk (.ok "Go,Rust") (.ok "prof") true true 1 2)
    [taroDoc] "Hana" "desc" rfl rfl (by decide) (by decide) (by decide)

end EmployeeSearch
